import Mathlib

/-!
Verification of the swell-event windowing scan, coordinate resolver and
catalog-product handling of `get_available_data.py`.

Conventions of the embedding:
* timestamps are integers counting seconds (a pandas `DatetimeIndex` entry;
  `timedelta.total_seconds()` becomes integer subtraction);
* measured values (`SwH`, `WWH`, `WVHT`) and thresholds are rationals
  (the Python floats are only parsed, negated and compared here);
* the printed diagnostics that matter to a claim are returned explicitly;
* a Python expression that raises is modelled by the `PyOutcome.raised`
  constructor.
-/

/-- One row of the realtime spectral table `rt.spec()`: its index timestamp,
its swell wave height `SwH` and its wind wave height `WWH`. -/
structure RtSample where
  time : Int
  swh : Rat
  wwh : Rat
deriving DecidableEq

/-- One row of the historic standard-meteorology table `ht.get_stand_meteo()`:
its index timestamp and its significant wave height `WVHT`. -/
structure HSample where
  time : Int
  wvht : Rat
deriving DecidableEq

/-- The accumulator loop of `realtime` (src/get_available_data.py lines 78-87).
Events are recorded as pairs `(first_date entry, last_date entry)`; the code
appends `swell_event[-1]` to `first_date` and `swell_event[0]` to `last_date`. -/
def realtimeScanAux (swell_height wind_wave_height : Rat) (window : Int) :
    List RtSample → List Int → List (Int × Int)
  | [], _ => []
  | s :: rest, swell_event =>
    if swell_height ≤ s.swh ∧ s.wwh ≤ wind_wave_height then
      let acc := swell_event ++ [s.time]
      if window * 3600 ≤ |acc.headD 0 - acc.getLastD 0| then
        (acc.getLastD 0, acc.headD 0) :: realtimeScanAux swell_height wind_wave_height window rest []
      else
        realtimeScanAux swell_height wind_wave_height window rest acc
    else
      realtimeScanAux swell_height wind_wave_height window rest []

/-- The accumulator loop of `historic` (src/get_available_data.py lines
171-180).  Here the code appends `swell_event[0]` to `first_date` and
`swell_event[-1]` to `last_date`. -/
def historicScanAux (wave_height : Rat) (window : Int) :
    List HSample → List Int → List (Int × Int)
  | [], _ => []
  | s :: rest, swell_event =>
    if wave_height ≤ s.wvht then
      let acc := swell_event ++ [s.time]
      if window * 3600 ≤ |acc.headD 0 - acc.getLastD 0| then
        (acc.headD 0, acc.getLastD 0) :: historicScanAux wave_height window rest []
      else
        historicScanAux wave_height window rest acc
    else
      historicScanAux wave_height window rest []

/-- Spec-side description of the windowing scan, written from the words of
spec.md section 4.2 for the refinement claim: keep an accumulator of
timestamps of samples satisfying the predicate, reset it on a failing sample,
and after each append emit an event with endpoints the accumulator's first and
last timestamps (then reset) whenever the elapsed duration between the first
and last accumulator elements reaches the minimum window duration. -/
def specWindowScan {α : Type} (pred : α → Prop) [DecidablePred pred]
    (time : α → Int) (minWindowSec : Int) :
    List α → List Int → List (Int × Int)
  | [], _ => []
  | s :: rest, accIn =>
    if pred s then
      let acc := accIn ++ [time s]
      if minWindowSec ≤ |acc.headD 0 - acc.getLastD 0| then
        (acc.headD 0, acc.getLastD 0) :: specWindowScan pred time minWindowSec rest []
      else
        specWindowScan pred time minWindowSec rest acc
    else
      specWindowScan pred time minWindowSec rest []

/-- The series preparation and scan of `realtime` (lines 70-87): drop the rows
whose `SwH` equals the 99.00 sentinel, then run the accumulator loop. -/
def realtime_events (swell_height wind_wave_height : Rat) (window : Int)
    (series : List RtSample) : List (Int × Int) :=
  realtimeScanAux swell_height wind_wave_height window
    (series.filter (fun s => decide (s.swh ≠ 99))) []

/-- The series preparation and scan of `historic` (lines 166-180): drop the
rows whose `WVHT` equals the 99.00 sentinel, then run the accumulator loop. -/
def historic_events (wave_height : Rat) (window : Int)
    (series : List HSample) : List (Int × Int) :=
  historicScanAux wave_height window
    (series.filter (fun s => decide (s.wvht ≠ 99))) []

/-! Helper lemmas about the scans. -/

theorem getLastD_append_one (l : List Int) (t d : Int) : (l ++ [t]).getLastD d = t := by
  induction l generalizing d with
  | nil => rfl
  | cons a l ih => rw [List.cons_append, List.getLastD_cons]; exact ih a

theorem headD_append_one (l : List Int) (t d : Int) : (l ++ [t]).headD d = l.headD t := by
  cases l <;> rfl

/-- The realtime accumulator loop is the spec algorithm with the realtime
predicate, with the recorded endpoint pairs swapped. -/
theorem realtimeScanAux_spec (sh wwh : Rat) (w : Int) :
    ∀ (l : List RtSample) (acc : List Int),
      realtimeScanAux sh wwh w l acc =
        (specWindowScan (fun s => sh ≤ s.swh ∧ s.wwh ≤ wwh) RtSample.time (w * 3600) l acc).map
          Prod.swap := by
  intro l
  induction l with
  | nil => intro acc; simp [realtimeScanAux, specWindowScan]
  | cons s rest ih =>
    intro acc
    simp only [realtimeScanAux, specWindowScan]
    split_ifs with hp hc
    · simp [ih]
    · exact ih (acc ++ [s.time])
    · exact ih []

/-- The historic accumulator loop is the spec algorithm with the historic
predicate, endpoints in accumulator order. -/
theorem historicScanAux_spec (wh : Rat) (w : Int) :
    ∀ (l : List HSample) (acc : List Int),
      historicScanAux wh w l acc =
        specWindowScan (fun s => wh ≤ s.wvht) HSample.time (w * 3600) l acc := by
  intro l
  induction l with
  | nil => intro acc; simp [historicScanAux, specWindowScan]
  | cons s rest ih =>
    intro acc
    simp only [historicScanAux, specWindowScan]
    split_ifs with hp hc
    · simp [ih]
    · exact ih (acc ++ [s.time])
    · exact ih []

/-- A stretch of samples failing the predicate produces no events from any
accumulator state. -/
theorem specWindowScan_of_none {α : Type} (p : α → Prop) [DecidablePred p]
    (time : α → Int) (wsec : Int) :
    ∀ (l : List α) (acc : List Int), (∀ x ∈ l, ¬ p x) →
      specWindowScan p time wsec l acc = [] := by
  intro l
  induction l with
  | nil => intro acc _; rfl
  | cons s rest ih =>
    intro acc h
    have hs : ¬ p s := h s (by simp)
    simpa [specWindowScan, hs] using ih [] (fun x hx => h x (by simp [hx]))

/-- Samples satisfying the predicate but still inside the window just extend
the accumulator without emitting. -/
theorem specWindowScan_extend {α : Type} (p : α → Prop) [DecidablePred p]
    (time : α → Int) (wsec : Int) :
    ∀ (mid l2 : List α) (a0 : Int) (acc0 : List Int),
      (∀ x ∈ mid, p x ∧ |a0 - time x| < wsec) →
      specWindowScan p time wsec (mid ++ l2) (a0 :: acc0) =
        specWindowScan p time wsec l2 (a0 :: (acc0 ++ mid.map time)) := by
  intro mid
  induction mid with
  | nil => intro l2 a0 acc0 _; simp
  | cons x mid2 ih =>
    intro l2 a0 acc0 h
    have hx := h x (by simp)
    have hnc : ¬ (wsec ≤ |a0 - time x|) := not_le.mpr hx.2
    have step :
        specWindowScan p time wsec ((x :: mid2) ++ l2) (a0 :: acc0) =
          specWindowScan p time wsec (mid2 ++ l2) (a0 :: (acc0 ++ [time x])) := by
      simp only [List.cons_append, specWindowScan, if_pos hx.1, List.getLastD_cons,
        getLastD_append_one, List.headD_cons, if_neg hnc]
      rfl
    rw [step, ih l2 a0 (acc0 ++ [time x]) (fun y hy => h y (by simp [hy]))]
    simp

/-- With a positive minimum window, every emitted event has distinct
endpoints. -/
theorem specWindowScan_mem_ne {α : Type} (p : α → Prop) [DecidablePred p]
    (time : α → Int) (wsec : Int) (hw : 0 < wsec) :
    ∀ (l : List α) (acc : List Int) (e : Int × Int),
      e ∈ specWindowScan p time wsec l acc → e.1 ≠ e.2 := by
  intro l
  induction l with
  | nil => intro acc e he; simp [specWindowScan] at he
  | cons s rest ih =>
    intro acc e he
    by_cases hp : p s
    · by_cases hc : wsec ≤ |(acc ++ [time s]).headD 0 - (acc ++ [time s]).getLastD 0|
      · simp only [specWindowScan, if_pos hp, if_pos hc, List.mem_cons] at he
        rcases he with rfl | he
        · have hpos : 0 < |(acc ++ [time s]).headD 0 - (acc ++ [time s]).getLastD 0| :=
            lt_of_lt_of_le hw hc
          simpa using abs_sub_pos.mp hpos
        · exact ih [] e he
      · simp only [specWindowScan, if_pos hp, if_neg hc] at he
        exact ih (acc ++ [time s]) e he
    · simp only [specWindowScan, if_neg hp] at he
      exact ih [] e he

/-- A qualifying run whose elapsed duration is exactly the minimum window,
followed only by failing samples, produces exactly one event, with endpoints
the run's first and last timestamps. -/
theorem specWindowScan_exact_run {α : Type} (p : α → Prop) [DecidablePred p]
    (time : α → Int) (wsec : Int) (s0 : α) (rs tl : List α)
    (hrun : ∀ x ∈ s0 :: rs, p x)
    (htl : ∀ x ∈ tl, ¬ p x)
    (hsort : ((s0 :: rs).map time).Pairwise (· < ·))
    (hdur : ((s0 :: rs).map time).getLastD 0 - time s0 = wsec) :
    specWindowScan p time wsec ((s0 :: rs) ++ tl) [] =
      [(time s0, ((s0 :: rs).map time).getLastD 0)] := by
  rcases List.eq_nil_or_concat rs with hrs | ⟨mid, sl, hrs⟩
  · subst hrs
    have hw0 : wsec = 0 := by simpa using hdur.symm
    have hp0 : p s0 := hrun s0 (by simp)
    have hc : wsec ≤ |time s0 - time s0| := by simp [hw0]
    simp only [List.cons_append, List.nil_append, specWindowScan, if_pos hp0,
      List.headD_cons, List.getLastD_cons, List.getLastD_nil, if_pos hc]
    have hnone : specWindowScan p time wsec (([] : List α).append tl) [] = [] :=
      specWindowScan_of_none p time wsec tl [] htl
    rw [hnone]
    simp
  · rw [List.concat_eq_append] at hrs
    subst hrs
    have hmap : (s0 :: (mid ++ [sl])).map time =
        time s0 :: (mid.map time ++ [time sl]) := by simp
    have hlast : ((s0 :: (mid ++ [sl])).map time).getLastD 0 = time sl := by
      rw [hmap, List.getLastD_cons, getLastD_append_one]
    rw [hlast] at hdur
    rw [hlast]
    rw [hmap] at hsort
    have hsort2 := List.pairwise_cons.mp hsort
    have ht0sl : time s0 < time sl := hsort2.1 (time sl) (by simp)
    have hwpos : 0 < wsec := by omega
    have hmidlt : ∀ y ∈ mid, time y < time sl := by
      intro y hy
      exact (List.pairwise_append.mp hsort2.2).2.2 (time y)
        (List.mem_map_of_mem time hy) (time sl) (by simp)
    have hmid0 : ∀ y ∈ mid, time s0 < time y := by
      intro y hy
      exact hsort2.1 (time y) (List.mem_append_left _ (List.mem_map_of_mem time hy))
    have hp0 : p s0 := hrun s0 (by simp)
    have hpsl : p sl := hrun sl (by simp)
    have hnc0 : ¬ (wsec ≤ |time s0 - time s0|) := by
      rw [sub_self, abs_zero]
      exact not_le.mpr hwpos
    have hmid : ∀ y ∈ mid, p y ∧ |time s0 - time y| < wsec := by
      intro y hy
      refine ⟨hrun y (by simp [hy]), ?_⟩
      have h1 := hmid0 y hy
      have h2 := hmidlt y hy
      rw [abs_sub_comm, abs_of_nonneg (by omega : (0:Int) ≤ time y - time s0)]
      omega
    have hlast2 : (time s0 :: (mid.map time ++ [time sl])).getLastD 0 = time sl := by
      rw [List.getLastD_cons, getLastD_append_one]
    have hcond : wsec ≤ |(time s0 :: (mid.map time ++ [time sl])).headD 0 -
        (time s0 :: (mid.map time ++ [time sl])).getLastD 0| := by
      rw [hlast2, List.headD_cons, abs_sub_comm,
        abs_of_nonneg (by omega : (0:Int) ≤ time sl - time s0)]
      omega
    simp only [List.cons_append, List.nil_append, specWindowScan, if_pos hp0,
      List.headD_cons, List.getLastD_cons, List.getLastD_nil, if_neg hnc0]
    show specWindowScan p time wsec ((mid ++ [sl]) ++ tl) [time s0] = [(time s0, time sl)]
    rw [List.append_assoc, specWindowScan_extend p time wsec mid ([sl] ++ tl) (time s0) [] hmid]
    simp only [List.nil_append, List.cons_append, specWindowScan, if_pos hpsl, if_pos hcond]
    have hnone2 : specWindowScan p time wsec (([] : List α).append tl) [] = [] :=
      specWindowScan_of_none p time wsec tl [] htl
    rw [hnone2]
    simp only [List.headD_cons, hlast2]

/-- The spec scan only looks at each sample through the predicate and the
timestamp, so two series agreeing on those produce identical events. -/
theorem specWindowScan_congr {α β : Type} (p1 : α → Prop) [DecidablePred p1]
    (p2 : β → Prop) [DecidablePred p2] (t1 : α → Int) (t2 : β → Int) (wsec : Int) :
    ∀ (l1 : List α) (l2 : List β) (acc : List Int),
      l1.map t1 = l2.map t2 →
      (l1.map fun s => decide (p1 s)) = (l2.map fun s => decide (p2 s)) →
      specWindowScan p1 t1 wsec l1 acc = specWindowScan p2 t2 wsec l2 acc := by
  intro l1
  induction l1 with
  | nil =>
    intro l2 acc ht _
    cases l2 with
    | nil => rfl
    | cons b l2 => simp at ht
  | cons a l1 ih =>
    intro l2 acc ht hp
    cases l2 with
    | nil => simp at ht
    | cons b l2 =>
      simp only [List.map_cons, List.cons.injEq] at ht hp
      have hiff : p1 a ↔ p2 b := decide_eq_decide.mp hp.1
      by_cases hpa : p1 a
      · have hpb : p2 b := hiff.mp hpa
        by_cases hc : wsec ≤ |(acc ++ [t1 a]).headD 0 - (acc ++ [t1 a]).getLastD 0|
        · have hc2 : wsec ≤ |(acc ++ [t2 b]).headD 0 - (acc ++ [t2 b]).getLastD 0| := by
            rw [← ht.1]; exact hc
          simp only [specWindowScan, if_pos hpa, if_pos hpb, if_pos hc, if_pos hc2]
          rw [ht.1, ih l2 [] ht.2 hp.2]
        · have hc2 : ¬ wsec ≤ |(acc ++ [t2 b]).headD 0 - (acc ++ [t2 b]).getLastD 0| := by
            rw [← ht.1]; exact hc
          simp only [specWindowScan, if_pos hpa, if_pos hpb, if_neg hc, if_neg hc2]
          rw [ht.1]
          exact ih l2 (acc ++ [t2 b]) ht.2 hp.2
      · have hpb : ¬ p2 b := fun hb => hpa (hiff.mpr hb)
        simp only [specWindowScan, if_neg hpa, if_neg hpb]
        exact ih l2 [] ht.2 hp.2

/-- C1: both windowing call sites follow exactly the spec algorithm: a sample
satisfying the predicate (primary ≥ threshold and, in the realtime variant,
secondary ≤ secondary threshold) appends its timestamp, a failing sample
resets the accumulator, and when after an append the elapsed duration between
the accumulator's first and last elements reaches the minimum window, one
event with endpoints taken from the accumulator's first and last timestamps
is emitted (the realtime site records the pair in swapped order) and the
accumulator is reset. -/
theorem claim_scan_follows_spec_algorithm :
    (∀ (sh wwh : Rat) (w : Int) (l : List RtSample),
      realtimeScanAux sh wwh w l [] =
        (specWindowScan (fun s => sh ≤ s.swh ∧ s.wwh ≤ wwh) RtSample.time (w * 3600) l []).map
          Prod.swap) ∧
    (∀ (wh : Rat) (w : Int) (l : List HSample),
      historicScanAux wh w l [] =
        specWindowScan (fun s => wh ≤ s.wvht) HSample.time (w * 3600) l []) :=
  ⟨fun sh wwh w l => realtimeScanAux_spec sh wwh w l [],
   fun wh w l => historicScanAux_spec wh w l []⟩

/-- C2: a qualifying run of strictly increasing timestamps whose elapsed
duration is exactly the minimum window, followed only by failing samples,
yields exactly one event, with endpoints the run's first and last
timestamps; the accumulator reset after emission prevents a second event.
The t0..t5 hourly example of the spec is the instance proved in the
witness. -/
theorem claim_exact_window_single_event :
    (∀ (sh wwh : Rat) (w : Int) (s0 : RtSample) (rs tl : List RtSample),
      (∀ x ∈ s0 :: rs, sh ≤ x.swh ∧ x.wwh ≤ wwh) →
      (∀ x ∈ tl, ¬ (sh ≤ x.swh ∧ x.wwh ≤ wwh)) →
      ((s0 :: rs).map RtSample.time).Pairwise (· < ·) →
      ((s0 :: rs).map RtSample.time).getLastD 0 - s0.time = w * 3600 →
      realtimeScanAux sh wwh w ((s0 :: rs) ++ tl) [] =
        [(((s0 :: rs).map RtSample.time).getLastD 0, s0.time)]) ∧
    (∀ (wh : Rat) (w : Int) (s0 : HSample) (rs tl : List HSample),
      (∀ x ∈ s0 :: rs, wh ≤ x.wvht) →
      (∀ x ∈ tl, ¬ wh ≤ x.wvht) →
      ((s0 :: rs).map HSample.time).Pairwise (· < ·) →
      ((s0 :: rs).map HSample.time).getLastD 0 - s0.time = w * 3600 →
      historicScanAux wh w ((s0 :: rs) ++ tl) [] =
        [(s0.time, ((s0 :: rs).map HSample.time).getLastD 0)]) := by
  constructor
  · intro sh wwh w s0 rs tl hrun htl hsort hdur
    rw [realtimeScanAux_spec,
      specWindowScan_exact_run _ RtSample.time _ s0 rs tl hrun htl hsort hdur]
    simp
  · intro wh w s0 rs tl hrun htl hsort hdur
    rw [historicScanAux_spec,
      specWindowScan_exact_run _ HSample.time _ s0 rs tl hrun htl hsort hdur]

/-- Witness for C2: the spec's hourly example, threshold satisfied at
t0..t3 only with a 3-hour window: exactly one event appears, with endpoints
t0 and t3 (realtime records them swapped, historic in order). -/
theorem claim_exact_window_single_event_witness :
    realtimeScanAux 1 99 3
        ((⟨0, 2, 0⟩ : RtSample) :: [⟨3600, 2, 0⟩, ⟨7200, 2, 0⟩, ⟨10800, 2, 0⟩] ++
          [⟨14400, 0, 0⟩, ⟨18000, 0, 0⟩]) [] = [(10800, 0)] ∧
    historicScanAux 1 3
        ((⟨0, 2⟩ : HSample) :: [⟨3600, 2⟩, ⟨7200, 2⟩, ⟨10800, 2⟩] ++
          [⟨14400, 0⟩, ⟨18000, 0⟩]) [] = [(0, 10800)] := by
  constructor
  · have h := claim_exact_window_single_event.1 1 99 3 ⟨0, 2, 0⟩
      [⟨3600, 2, 0⟩, ⟨7200, 2, 0⟩, ⟨10800, 2, 0⟩] [⟨14400, 0, 0⟩, ⟨18000, 0, 0⟩]
      (by decide) (by decide) (by decide) (by decide)
    exact h.trans (by decide)
  · have h := claim_exact_window_single_event.2 1 3 ⟨0, 2⟩
      [⟨3600, 2⟩, ⟨7200, 2⟩, ⟨10800, 2⟩] [⟨14400, 0⟩, ⟨18000, 0⟩]
      (by decide) (by decide) (by decide) (by decide)
    exact h.trans (by decide)

/-- C3: on series with the same timestamps and the same predicate outcomes,
the two call sites compute the same events but record the endpoint pairs in
opposite order: realtime as (last, first), historic as (first, last). -/
theorem claim_endpoint_order_asymmetry :
    ∀ (sh wwh wh : Rat) (w : Int) (rl : List RtSample) (hl : List HSample),
      rl.map RtSample.time = hl.map HSample.time →
      (rl.map fun s => decide (sh ≤ s.swh ∧ s.wwh ≤ wwh)) =
        (hl.map fun s => decide (wh ≤ s.wvht)) →
      realtimeScanAux sh wwh w rl [] = (historicScanAux wh w hl []).map Prod.swap := by
  intro sh wwh wh w rl hl ht hp
  rw [realtimeScanAux_spec, historicScanAux_spec,
    specWindowScan_congr (fun s => sh ≤ s.swh ∧ s.wwh ≤ wwh) (fun s => wh ≤ s.wvht)
      RtSample.time HSample.time (w * 3600) rl hl [] ht hp]

/-- Witness for C3 at a concrete two-sample series. -/
theorem claim_endpoint_order_asymmetry_witness :
    ([⟨0, 2, 0⟩, ⟨3600, 2, 0⟩] : List RtSample).map RtSample.time =
      ([⟨0, 5⟩, ⟨3600, 5⟩] : List HSample).map HSample.time ∧
    realtimeScanAux 1 99 1 [⟨0, 2, 0⟩, ⟨3600, 2, 0⟩] [] =
      (historicScanAux 1 1 [⟨0, 5⟩, ⟨3600, 5⟩] []).map Prod.swap := by
  refine ⟨by decide, ?_⟩
  exact claim_endpoint_order_asymmetry 1 99 1 1 [⟨0, 2, 0⟩, ⟨3600, 2, 0⟩]
    [⟨0, 5⟩, ⟨3600, 5⟩] (by decide) (by decide)

/-- C6 counterexample: with minimum window duration 0 the scan emits an
event whose two endpoints are the same single timestamp, so the claim fails
for that window duration. -/
theorem claim_no_single_sample_event_cex :
    ((0 : Int), (0 : Int)) ∈ realtimeScanAux 1 99 0 [⟨0, 2, 0⟩] [] := by decide

/-- C6 amended: for every POSITIVE minimum window duration the scan never
emits an event whose two endpoints coincide, and when the first two
qualifying samples already satisfy the duration threshold the emitted
event's endpoints are exactly those two samples. -/
theorem claim_no_single_sample_event_amended :
    ∀ (sh wwh wh : Rat) (w : Int), 0 < w →
      ((∀ (l : List RtSample) (e : Int × Int), e ∈ realtimeScanAux sh wwh w l [] → e.1 ≠ e.2) ∧
       (∀ (l : List HSample) (e : Int × Int), e ∈ historicScanAux wh w l [] → e.1 ≠ e.2) ∧
       (∀ (s0 s1 : RtSample) (rest : List RtSample),
          sh ≤ s0.swh ∧ s0.wwh ≤ wwh → sh ≤ s1.swh ∧ s1.wwh ≤ wwh →
          w * 3600 ≤ |s0.time - s1.time| →
          realtimeScanAux sh wwh w (s0 :: s1 :: rest) [] =
            (s1.time, s0.time) :: realtimeScanAux sh wwh w rest []) ∧
       (∀ (s0 s1 : HSample) (rest : List HSample),
          wh ≤ s0.wvht → wh ≤ s1.wvht →
          w * 3600 ≤ |s0.time - s1.time| →
          historicScanAux wh w (s0 :: s1 :: rest) [] =
            (s0.time, s1.time) :: historicScanAux wh w rest [])) := by
  intro sh wwh wh w hw
  have hwsec : 0 < w * 3600 := by omega
  refine ⟨?_, ?_, ?_, ?_⟩
  · intro l e he
    rw [realtimeScanAux_spec] at he
    rcases List.mem_map.mp he with ⟨e2, he2, rfl⟩
    have hne := specWindowScan_mem_ne _ RtSample.time (w * 3600) hwsec l [] e2 he2
    simpa using Ne.symm hne
  · intro l e he
    rw [historicScanAux_spec] at he
    exact specWindowScan_mem_ne _ HSample.time (w * 3600) hwsec l [] e he
  · intro s0 s1 rest h0 h1 hd
    have hnc0 : ¬ (w * 3600 ≤ |s0.time - s0.time|) := by
      rw [sub_self, abs_zero]
      exact not_le.mpr hwsec
    simp only [realtimeScanAux, List.cons_append, List.nil_append, if_pos h0, if_pos h1,
      List.headD_cons, List.getLastD_cons, List.getLastD_nil, if_neg hnc0, if_pos hd]
  · intro s0 s1 rest h0 h1 hd
    have hnc0 : ¬ (w * 3600 ≤ |s0.time - s0.time|) := by
      rw [sub_self, abs_zero]
      exact not_le.mpr hwsec
    simp only [historicScanAux, List.cons_append, List.nil_append, if_pos h0, if_pos h1,
      List.headD_cons, List.getLastD_cons, List.getLastD_nil, if_neg hnc0, if_pos hd]

/-- Witness for amended C6 at a concrete two-sample run with a 1-hour
window. -/
theorem claim_no_single_sample_event_amended_witness :
    ((0 : Int) < 1) ∧
    realtimeScanAux 1 99 1 [⟨0, 2, 0⟩, ⟨3600, 2, 0⟩] [] = [(3600, 0)] ∧
    historicScanAux 1 1 [⟨0, 2⟩, ⟨3600, 2⟩] [] = [(0, 3600)] := by
  refine ⟨by decide, ?_, ?_⟩
  · have h := (claim_no_single_sample_event_amended 1 99 1 1 (by decide)).2.2.1
      ⟨0, 2, 0⟩ ⟨3600, 2, 0⟩ [] (by decide) (by decide) (by decide)
    exact h.trans (by decide)
  · have h := (claim_no_single_sample_event_amended 1 99 1 1 (by decide)).2.2.2
      ⟨0, 2⟩ ⟨3600, 2⟩ [] (by decide) (by decide) (by decide)
    exact h.trans (by decide)

/-- C7: a series whose primary values all lie strictly below the primary
threshold produces no events in either call site. -/
theorem claim_below_threshold_no_events :
    (∀ (sh wwh : Rat) (w : Int) (l : List RtSample),
      (∀ s ∈ l, s.swh < sh) → realtime_events sh wwh w l = []) ∧
    (∀ (wh : Rat) (w : Int) (l : List HSample),
      (∀ s ∈ l, s.wvht < wh) → historic_events wh w l = []) := by
  constructor
  · intro sh wwh w l h
    unfold realtime_events
    rw [realtimeScanAux_spec]
    have hnone := specWindowScan_of_none (fun s : RtSample => sh ≤ s.swh ∧ s.wwh ≤ wwh)
      RtSample.time (w * 3600) (l.filter (fun s => decide (s.swh ≠ 99))) []
      (fun x hx h2 => absurd h2.1 (not_le.mpr (h x (List.mem_of_mem_filter hx))))
    rw [hnone]
    simp
  · intro wh w l h
    unfold historic_events
    rw [historicScanAux_spec]
    exact specWindowScan_of_none (fun s : HSample => wh ≤ s.wvht)
      HSample.time (w * 3600) (l.filter (fun s => decide (s.wvht ≠ 99))) []
      (fun x hx => not_le.mpr (h x (List.mem_of_mem_filter hx)))

/-- Witness for C7. -/
theorem claim_below_threshold_no_events_witness :
    ((2 : Rat) < 3) ∧ realtime_events 3 99 24 [⟨0, 2, 0⟩] = [] ∧
      historic_events 3 24 [⟨0, 2⟩] = [] := by
  refine ⟨by decide, ?_, ?_⟩
  · exact claim_below_threshold_no_events.1 3 99 24 [⟨0, 2, 0⟩] (by decide)
  · exact claim_below_threshold_no_events.2 3 24 [⟨0, 2⟩] (by decide)

/-- C8: a row carrying the 99.00 sentinel in the primary column is removed
before the scan, so inserting such a row anywhere in the series neither
resets the accumulator nor contributes a timestamp to any event: the event
list is unchanged. -/
theorem claim_sentinel_rows_inert :
    (∀ (sh wwh : Rat) (w : Int) (xs ys : List RtSample) (s : RtSample), s.swh = 99 →
      realtime_events sh wwh w (xs ++ s :: ys) = realtime_events sh wwh w (xs ++ ys)) ∧
    (∀ (wh : Rat) (w : Int) (xs ys : List HSample) (s : HSample), s.wvht = 99 →
      historic_events wh w (xs ++ s :: ys) = historic_events wh w (xs ++ ys)) := by
  constructor
  · intro sh wwh w xs ys s hs
    unfold realtime_events
    rw [List.filter_append, List.filter_append, List.filter_cons]
    simp [hs]
  · intro wh w xs ys s hs
    unfold historic_events
    rw [List.filter_append, List.filter_append, List.filter_cons]
    simp [hs]

/-- Witness for C8: a sentinel row in the middle of a qualifying run changes
nothing. -/
theorem claim_sentinel_rows_inert_witness :
    ((99 : Rat) = 99) ∧
    realtime_events 1 99 1 ([⟨0, 2, 0⟩] ++ (⟨1800, 99, 0⟩ : RtSample) :: [⟨3600, 2, 0⟩]) =
      realtime_events 1 99 1 ([⟨0, 2, 0⟩] ++ [⟨3600, 2, 0⟩]) ∧
    historic_events 1 1 ([⟨0, 2⟩] ++ (⟨1800, 99⟩ : HSample) :: [⟨3600, 2⟩]) =
      historic_events 1 1 ([⟨0, 2⟩] ++ [⟨3600, 2⟩]) := by
  refine ⟨rfl, ?_, ?_⟩
  · exact claim_sentinel_rows_inert.1 1 99 1 [⟨0, 2, 0⟩] [⟨3600, 2, 0⟩] ⟨1800, 99, 0⟩ rfl
  · exact claim_sentinel_rows_inert.2 1 1 [⟨0, 2⟩] [⟨3600, 2⟩] ⟨1800, 99⟩ rfl

/-! The coordinate resolver `get_lat_lon_from_ndbcnoaa` (lines 217-249).
The regular expression search with the fixed pattern
`(\d+\.\d+) ([N|S]) (\d+\.\d+) ([W|E])` under IGNORECASE is embedded as an
explicit leftmost-match scanner over the page characters.  For this pattern
greedy matching without backtracking is exact: every `\d+` is followed by a
character that can never be a digit, so giving digits back can never help. -/

/-- Split a maximal run of leading decimal digits from the rest. -/
def takeDigits : List Char → List Char × List Char
  | [] => ([], [])
  | c :: cs =>
    if c.isDigit then
      let p := takeDigits cs
      (c :: p.1, p.2)
    else ([], c :: cs)

/-- Match `\d+\.\d+` at the head of the character list, returning the matched
group text and the remainder. -/
def matchNum (cs : List Char) : Option (List Char × List Char) :=
  match takeDigits cs with
  | (d1, rest) =>
    if d1.isEmpty then none
    else
      match rest with
      | '.' :: rest2 =>
        match takeDigits rest2 with
        | (d2, rest3) => if d2.isEmpty then none else some (d1 ++ '.' :: d2, rest3)
      | _ => none

/-- The character class `[N|S]` under IGNORECASE (the literal bar is part of
the class as written in the source pattern). -/
def latClass (c : Char) : Bool :=
  c == 'N' || c == 'n' || c == 'S' || c == 's' || c == '|'

/-- The character class `[W|E]` under IGNORECASE. -/
def lonClass (c : Char) : Bool :=
  c == 'W' || c == 'w' || c == 'E' || c == 'e' || c == '|'

/-- Match the whole coordinate pattern at the head of the character list,
returning the four captured groups. -/
def matchCoordAt (cs : List Char) : Option (List Char × Char × List Char × Char) :=
  match matchNum cs with
  | none => none
  | some (g1, r1) =>
    match r1 with
    | ' ' :: c1 :: ' ' :: r2 =>
      if latClass c1 then
        match matchNum r2 with
        | none => none
        | some (g3, r3) =>
          match r3 with
          | ' ' :: c2 :: _ => if lonClass c2 then some (g1, c1, g3, c2) else none
          | _ => none
      else none
    | _ => none

/-- Leftmost match of the coordinate pattern, as `re.search` finds it. -/
def searchCoord : List Char → Option (List Char × Char × List Char × Char)
  | [] => none
  | c :: cs =>
    match matchCoordAt (c :: cs) with
    | some g => some g
    | none => searchCoord cs

/-- Value of a digit string. -/
def digitsToNat (ds : List Char) : Nat :=
  ds.foldl (fun n c => 10 * n + (c.toNat - '0'.toNat)) 0

/-- Python `float()` applied to a matched `\d+\.\d+` group, modelled exactly
over the rationals. -/
def pyFloat (cs : List Char) : Rat :=
  match takeDigits cs with
  | (d1, rest) =>
    match rest with
    | '.' :: rest2 =>
      (digitsToNat d1 : Rat) +
        (digitsToNat (takeDigits rest2).1 : Rat) / (10 : Rat) ^ (takeDigits rest2).1.length
    | _ => (digitsToNat d1 : Rat)

/-- The `requests.get` response as the resolver reads it. -/
structure HttpResponse where
  status_code : Nat
  text : String

/-- Result of running a Python function: a returned value together with the
diagnostics it printed, or an uncaught exception. -/
inductive PyOutcome (α : Type) where
  | ok : α → PyOutcome α
  | raised : String → PyOutcome α
deriving DecidableEq

/-- `get_lat_lon_from_ndbcnoaa` (lines 217-249) on a given response.  On a
200 response with a pattern match the hemisphere sign is applied by comparing
the captured group against the uppercase characters only; on a 200 response
without a match the failure diagnostic is printed and `None, None` returned.
On any other status the diagnostic print evaluates
`'Something went wrong while connecting to ndbc website... ' +
response.status_code`, a `str + int` concatenation, which raises `TypeError`
before the `return None, None` on line 249 can execute. -/
def get_lat_lon_from_ndbcnoaa (response : HttpResponse) :
    PyOutcome (List String × Option (Rat × Rat)) :=
  if response.status_code = 200 then
    match searchCoord response.text.data with
    | some (g1, d1, g3, d3) =>
      let lat := pyFloat g1
      let lon := pyFloat g3
      let lat2 := if d1 = 'S' then lat * (-1) else lat
      let lon2 := if d3 = 'W' then lon * (-1) else lon
      PyOutcome.ok ([], some (lat2, lon2))
    | none => PyOutcome.ok (["Regex pattern not found... "], none)
  else
    PyOutcome.raised "TypeError"

/-- C4: the pattern-not-found case does return a null coordinate with a
diagnostic, but the failed-fetch case raises a `TypeError` (the diagnostic
concatenates a string with the integer status code) instead of returning the
null coordinate, contradicting the claim that both failures are reported and
never raised. -/
theorem claim_resolver_failure_behavior :
    get_lat_lon_from_ndbcnoaa ⟨404, "41.2 N 72.6 W"⟩ = PyOutcome.raised "TypeError" ∧
    get_lat_lon_from_ndbcnoaa ⟨200, "no coordinates here"⟩ =
      PyOutcome.ok (["Regex pattern not found... "], none) := by
  exact ⟨by decide, by decide⟩

/-- C5 counterexample: the page body "41.2 s 72.6 w" matches the pattern
case-insensitively with a south hemisphere indicator, yet the resolver
returns the latitude (and longitude) positive, because the sign test
compares against the uppercase 'S' and 'W' only. -/
theorem claim_resolver_sign_cex :
    get_lat_lon_from_ndbcnoaa ⟨200, "41.2 s 72.6 w"⟩ =
      PyOutcome.ok ([], some (206 / 5, 363 / 5)) ∧ ((0 : Rat) < 206 / 5) := by
  constructor
  · have hs : searchCoord ("41.2 s 72.6 w").data =
        some (['4', '1', '.', '2'], 's', ['7', '2', '.', '6'], 'w') := by decide
    simp +decide [get_lat_lon_from_ndbcnoaa, hs, pyFloat, takeDigits, digitsToNat]
    norm_num
  · norm_num

/-- C5 amended: for every page body matching the pattern, the resolver
negates the latitude iff the matched hemisphere character is the uppercase
'S' and the longitude iff it is the uppercase 'W'; in particular
"41.2 N 72.6 W" yields (41.2, -72.6). -/
theorem claim_resolver_sign_amended :
    (∀ (body : String) (g1 : List Char) (d1 : Char) (g3 : List Char) (d3 : Char),
      searchCoord body.data = some (g1, d1, g3, d3) →
      get_lat_lon_from_ndbcnoaa ⟨200, body⟩ =
        PyOutcome.ok ([], some ((if d1 = 'S' then pyFloat g1 * (-1) else pyFloat g1),
          (if d3 = 'W' then pyFloat g3 * (-1) else pyFloat g3)))) ∧
    get_lat_lon_from_ndbcnoaa ⟨200, "41.2 N 72.6 W"⟩ =
      PyOutcome.ok ([], some (206 / 5, -(363 / 5))) := by
  constructor
  · intro body g1 d1 g3 d3 h
    simp [get_lat_lon_from_ndbcnoaa, h]
  · have hs : searchCoord ("41.2 N 72.6 W").data =
        some (['4', '1', '.', '2'], 'N', ['7', '2', '.', '6'], 'W') := by decide
    simp +decide [get_lat_lon_from_ndbcnoaa, hs, pyFloat, takeDigits, digitsToNat]
    norm_num

/-- Witness for amended C5: a lowercase-hemisphere page keeps both
coordinates positive. -/
theorem claim_resolver_sign_amended_witness :
    searchCoord ("1.5 s 2.5 e").data =
      some (['1', '.', '5'], 's', ['2', '.', '5'], 'e') ∧
    get_lat_lon_from_ndbcnoaa ⟨200, "1.5 s 2.5 e"⟩ =
      PyOutcome.ok ([], some (3 / 2, 5 / 2)) := by
  refine ⟨by decide, ?_⟩
  have h := claim_resolver_sign_amended.1 "1.5 s 2.5 e" ['1', '.', '5'] 's' ['2', '.', '5'] 'e'
    (by decide)
  refine h.trans ?_
  simp +decide [pyFloat, takeDigits, digitsToNat]
  norm_num

/-! Catalog product handling.  For each confirmed event, `realtime` (lines
99-121) and `historic` (lines 193-214) query the imagery catalog; the model
below embeds what each does with the returned product set: the key list is
recovered by slicing the printed representation of `products.keys()` (an
`odict_keys(['k1', 'k2'])` string), and afterwards the loop variable `i` of
that cleaning loop retains its final value, the index of the LAST key. -/

/-- A catalog product: its key in the response ordered dictionary and its
title attribute. -/
structure CatalogProduct where
  key : String
  title : String
deriving DecidableEq

/-- Python `s.split(',')` on characters. -/
def splitOnComma : List Char → List (List Char)
  | [] => [[]]
  | c :: cs =>
    if c = ',' then [] :: splitOnComma cs
    else
      match splitOnComma cs with
      | [] => [[c]]
      | p :: ps => (c :: p) :: ps

/-- Python slice `s[n:]`. -/
def pyDrop (n : Nat) (cs : List Char) : List Char := cs.drop n

/-- Python slice `s[:-n]`. -/
def pyDropEnd (n : Nat) (cs : List Char) : List Char := cs.take (cs.length - n)

/-- The `', '` join inside the printed representation of a Python list. -/
def joinCommaSpace : List (List Char) → List Char
  | [] => []
  | [x] => x
  | x :: xs => x ++ ',' :: ' ' :: joinCommaSpace xs

/-- `str(products.keys())` for an OrderedDict with string keys:
`odict_keys(['k1', 'k2'])`. -/
def odictKeysChars (ks : List (List Char)) : List Char :=
  ("odict_keys([").data ++ joinCommaSpace (ks.map (fun k => '\'' :: k ++ ['\''])) ++ ("])").data

/-- The cleaning loop `for i in range(len(cleaning_data))`: strip one leading
quote (plus the leading space from the comma split after the first piece) and
the trailing quote. -/
def cleanLoop (i : Nat) : List (List Char) → List (List Char)
  | [] => []
  | x :: xs =>
    (if i = 0 then pyDropEnd 1 (pyDrop 1 x) else pyDropEnd 1 (pyDrop 2 x)) :: cleanLoop (i + 1) xs

/-- The `cleaning_data` pipeline of lines 104-113: print the key view, slice
off `odict_keys([` and `])`, split on commas and strip the quotes. -/
def product_keys_of (products : List CatalogProduct) : List (List Char) :=
  cleanLoop 0 (splitOnComma (pyDropEnd 2 (pyDrop 12 (odictKeysChars (products.map (fun p => p.key.data))))))

/-- `products[k]['title']`: `none` models a `KeyError`. -/
def lookupTitle (products : List CatalogProduct) (k : List Char) : Option String :=
  (products.find? (fun p => p.key.data == k)).map (fun p => p.title)

/-- Per-event product handling of `realtime` (lines 99-121), returning the
titles appended to `product_list` and the products handed to
`api.download_all`.  After the cleaning loop, `i` is the index of the last
key, and line 120 reads `products[product_keys[i]]['title']` in both
branches. -/
def processEventRealtime (products : List CatalogProduct) (auto_download : String) :
    Option (List String × List CatalogProduct) :=
  if products.length = 0 then some ([], [])
  else
    let product_keys := product_keys_of products
    let i := product_keys.length - 1
    match lookupTitle products (product_keys.getD i []) with
    | none => none
    | some t => if auto_download = "on" then some ([], products) else some ([t], [])

/-- Per-event product handling of `historic` (lines 193-214): as in
`realtime`, but the title is only read in the `auto_download == 'off'`
branch. -/
def processEventHistoric (products : List CatalogProduct) (auto_download : String) :
    Option (List String × List CatalogProduct) :=
  if products.length = 0 then some ([], [])
  else
    let product_keys := product_keys_of products
    let i := product_keys.length - 1
    if auto_download = "on" then some ([], products)
    else
      match lookupTitle products (product_keys.getD i []) with
      | none => none
      | some t => some ([t], [])

/-- C9: the zero-product and auto-download branches behave as claimed, but
with auto-download off only the LAST matched product's title is collected:
the cleaning loop reuses the index variable `i`, which keeps its final value
when `products[product_keys[i]]['title']` is appended, so a two-product event
collects only "Title B" instead of both titles (contradicting the docstring
"Returns a list with all titles of available ... products"). -/
theorem claim_product_title_collection :
    processEventRealtime [⟨"a", "Title A"⟩, ⟨"b", "Title B"⟩] "off" = some (["Title B"], []) ∧
    processEventHistoric [⟨"a", "Title A"⟩, ⟨"b", "Title B"⟩] "off" = some (["Title B"], []) ∧
    processEventRealtime [⟨"a", "Title A"⟩, ⟨"b", "Title B"⟩] "off" ≠
      some (["Title A", "Title B"], []) ∧
    processEventRealtime [] "off" = some ([], []) ∧
    processEventHistoric [] "off" = some ([], []) ∧
    processEventRealtime [⟨"a", "Title A"⟩, ⟨"b", "Title B"⟩] "on" =
      some ([], [⟨"a", "Title A"⟩, ⟨"b", "Title B"⟩]) ∧
    processEventHistoric [⟨"a", "Title A"⟩, ⟨"b", "Title B"⟩] "on" =
      some ([], [⟨"a", "Title A"⟩, ⟨"b", "Title B"⟩]) := by
  refine ⟨by decide, by decide, by decide, by decide, by decide, by decide, by decide⟩

/-! The station sweep `any_realtime` (lines 251-298). -/

/-- The module-level list of realtime buoy stations (line 27). -/
def list_of_realtime_buoys_NOAA : List Nat :=
  [41001, 41002, 41004, 41008, 41009, 41010, 41013, 41040, 41043, 41044, 41046, 41047,
   41048, 41049, 42002, 42012, 42019, 42020, 42036, 42039, 42040, 42055, 42056, 42059,
   42060, 44005, 44007, 44008, 44009, 44011, 44013, 44014, 44017, 44020, 44025, 44027,
   44065, 44066, 46002, 46005, 46006, 46011, 46012, 46014, 46015, 46022, 46025, 46026,
   46027, 46028, 46029, 46035, 46041, 46042, 46047, 46050, 46054, 46059, 46061, 46069,
   46070, 46072, 46073, 46076, 46077, 46080, 46081, 46082, 46083, 46085, 46086, 46089,
   51000, 51001, 51003, 51004, 51101]

/-- `any_realtime` (lines 251-298), with the effectful `realtime` call
abstracted as the oracle `rt` taking realtime's full parameter list
(location, username, password, swell_height, window, wind_wave_height,
platformname, polarisationmode, producttype, sensoroperationalmode,
auto_download).  Each per-station call on line 287 passes only the first
four arguments, so every other parameter takes realtime's declared default.
The returned value is `all_products`; the summary print lines (which do
mention `window`) are returned alongside it. -/
def any_realtime
    (rt : Nat → String → String → Rat → Int → Rat → String → String → String → String →
      String → List String)
    (username password : String) (swell_height : Rat) (window : Int)
    (wind_wave_height : Rat)
    (platformname polarisationmode producttype sensoroperationalmode : String) :
    List (List String) × List String :=
  let all_products := list_of_realtime_buoys_NOAA.map
    (fun loc => rt loc username password swell_height 24 99 "Sentinel-1" "VV" "SLC" "IW" "off")
  let summary := ((list_of_realtime_buoys_NOAA.zip all_products).filter
      (fun p => decide (p.2.length ≠ 0))).map
      (fun p => "Buoy station " ++ toString p.1 ++ " has " ++ toString p.2.length ++
        " available product(s) for a " ++ toString window ++ "h swell event")
  (all_products, summary)

/-- C10: the per-station product lists returned by `any_realtime` do not
depend on its window, wind_wave_height, platformname, polarisationmode,
producttype or sensoroperationalmode arguments: every per-station call
forwards only location, username, password and swell_height, leaving the
rest at realtime's defaults (24, 99, 'Sentinel-1', 'VV', 'SLC', 'IW'). -/
theorem claim_any_realtime_ignores_extra_params :
    ∀ (rt : Nat → String → String → Rat → Int → Rat → String → String → String → String →
        String → List String)
      (u p : String) (sh : Rat) (w1 w2 : Int) (wwh1 wwh2 : Rat)
      (pn1 pn2 pm1 pm2 pt1 pt2 so1 so2 : String),
      (any_realtime rt u p sh w1 wwh1 pn1 pm1 pt1 so1).1 =
        (any_realtime rt u p sh w2 wwh2 pn2 pm2 pt2 so2).1 ∧
      (any_realtime rt u p sh w1 wwh1 pn1 pm1 pt1 so1).1 =
        list_of_realtime_buoys_NOAA.map
          (fun loc => rt loc u p sh 24 99 "Sentinel-1" "VV" "SLC" "IW" "off") := by
  intro rt u p sh w1 w2 wwh1 wwh2 pn1 pn2 pm1 pm2 pt1 pt2 so1 so2
  exact ⟨rfl, rfl⟩
